import Mathlib

/-!
Verification of the worker-host manager (`src/cli/ops/worker_host.rs`).

This file gives a shallow embedding of the host-side worker management
code: the worker table held in host session state, the four ops
(`op_create_worker`, `op_host_terminate_worker`, `op_host_post_message`,
`op_host_get_message`), the worker-thread launch path
(`run_worker_thread`) and the event serializer
(`serialize_worker_event`).  External collaborators (the scripting
engine, module resolution, channels) are modelled as oracles: values
recording the result the collaborator would return.  Side effects that
matter to the claims (joining a thread, closing a channel, signalling
termination, delivering a message) are recorded as an explicit effect
trace, and a Rust panic (an `expect`/`assert` firing, which aborts the
op rather than returning an error value to the caller) is a dedicated
outcome constructor.
-/

namespace WorkerHost

/-- A JSON value; the host's outward event shape
(`serde_json::Value`). -/
inductive JValue where
  | null
  | bool (b : Bool)
  | num (n : Int)
  | str (s : String)
  | arr (xs : List JValue)
  | obj (fields : List (String × JValue))

/-- An opaque byte payload (Rust `Box<[u8]>` / `ZeroCopyBuf`), each byte
a `Nat`. -/
abbrev ByteBuf := List Nat

/-- Serialization of a byte buffer as a JSON array of numbers, as
`serde_json` renders `Box<[u8]>`. -/
def jsonOfBytes (buf : ByteBuf) : JValue :=
  JValue.arr (buf.map fun b => JValue.num (Int.ofNat b))

/-- The structured script error `crate::fmt_errors::JSError`.  Its
declaration is outside `src/`; modelled from the spec: it carries
engine-level source-location metadata, the fields serialized as
`message`, `fileName`, `lineNumber` and `columnNumber`. -/
structure JSErrorData where
  message : String
  script_resource_name : String
  line_number : Int
  start_column : Int
deriving DecidableEq

/-- A boxed dynamic error (`deno_core::ErrBox`): `message` is what
`to_string()` yields, and `jsError` records whether a downcast to
`JSError` would succeed (the downcast itself is vendor code outside
`src/`; modelled from the spec: classification is a best-effort
downcast). -/
structure ErrBox where
  message : String
  jsError : Option JSErrorData
deriving DecidableEq

/-- `ErrBox::downcast::<JSError>()`: consumes the error, yielding the
structured script error on success and giving the original box back on
failure. -/
def ErrBox.downcastJSError (e : ErrBox) : Except ErrBox JSErrorData :=
  match e.jsError with
  | some js => Except.ok js
  | none => Except.error e

/-- `crate::worker::WorkerEvent`: the tagged union of things a worker
reports to its host. -/
inductive WorkerEvent where
  | Message (buf : ByteBuf)
  | Error (error : ErrBox)
  | TerminalError (error : ErrBox)
deriving DecidableEq

/-- The thread-safe worker handle (`WebWorkerHandle`).  Its declaration
is outside `src/`; modelled from the spec: the only observable this
file's code depends on is whether the inbound message channel is still
open (`post_message` fails with a closed-channel condition once the
worker has terminated). -/
structure WorkerHandle where
  senderClosed : Bool
deriving DecidableEq

/-- The constructed worker (`WebWorker`), reduced to what
`run_worker_thread` uses after construction: the thread-safe handle it
hands back through the handshake. -/
structure WebWorker where
  handle : WorkerHandle
deriving DecidableEq

/-- `WebWorker::thread_safe_handle`. -/
def WebWorker.thread_safe_handle (w : WebWorker) : WorkerHandle :=
  w.handle

/-- One worker-table entry: the thread join capability (identified by
an abstract handle number) paired with the worker handle, as stored by
`op_create_worker` under the allocated id. -/
structure WorkerEntry where
  joinHandle : Nat
  handle : WorkerHandle
deriving DecidableEq

/-- Host session state: the id counter `next_worker_id` and the worker
table `workers` (a finite map from id to entry, embedded as an
association list with the most recent insertion first).  The `State`
struct itself is declared outside `src/`; modelled from the spec: a
monotonically increasing counter plus the id-to-entry map, both held in
host session state. -/
structure HostState where
  next_worker_id : Nat
  workers : List (Nat × WorkerEntry)
deriving DecidableEq

/-- `HashMap::get`: the entry stored under `k`, if any. -/
def tableGet (t : List (Nat × WorkerEntry)) (k : Nat) : Option WorkerEntry :=
  match t with
  | [] => none
  | (k0, v) :: rest => if k0 = k then some v else tableGet rest k

/-- `HashMap::remove`: the entry stored under `k` together with the
table without it, or `none` when `k` is absent. -/
def tableRemove (t : List (Nat × WorkerEntry)) (k : Nat) :
    Option (WorkerEntry × List (Nat × WorkerEntry)) :=
  match t with
  | [] => none
  | (k0, v) :: rest =>
    if k0 = k then some (v, rest)
    else
      match tableRemove rest k with
      | none => none
      | some (e, rest0) => some (e, (k0, v) :: rest0)

/-- `HashMap::insert` for a key not already present (the only way this
file inserts). -/
def tableInsert (t : List (Nat × WorkerEntry)) (k : Nat) (v : WorkerEntry) :
    List (Nat × WorkerEntry) :=
  (k, v) :: t

/-- Observable side effects an op performs, in order. -/
inductive HostEffect where
  | terminateSignal (id : Nat)
  | closeChannel (id : Nat)
  | joinThread (joinHandle : Nat)
  | sentMessage (id : Nat) (payload : ByteBuf)
deriving DecidableEq

/-- The outcome of one op as seen by the dispatch layer: a value, an
error result (`OpError`), or a Rust panic (`expect` / `assert`
firing). -/
inductive OpResult (α : Type) where
  | ok (v : α)
  | err (msg : String)
  | panicked (msg : String)
deriving DecidableEq

/-- One op step: the session state it leaves behind, the result handed
back, and the trace of observable effects it performed. -/
structure OpStep (α : Type) where
  state : HostState
  result : OpResult α
  effects : List HostEffect

/-- The `args.id as u32` cast: `WorkerArgs.id` is deserialized as a
signed 32-bit integer and converted to unsigned with a wrapping (two's
complement) cast. -/
def asU32 (n : Int) : Nat :=
  (n % 4294967296).toNat

/-- `op_host_terminate_worker`: removes the entry (panicking via
`expect` when the id is absent), signals termination through the
handle, then joins the worker thread. -/
def op_host_terminate_worker (st : HostState) (idArg : Int) : OpStep Unit :=
  match tableRemove st.workers (asU32 idArg) with
  | none => ⟨st, OpResult.panicked "No worker handle found", []⟩
  | some (entry, rest) =>
      ⟨{ st with workers := rest }, OpResult.ok (),
       [HostEffect.terminateSignal (asU32 idArg),
        HostEffect.joinThread entry.joinHandle]⟩

/-- `serialize_worker_event`: maps a worker event to the host's outward
JSON shape.  Mirrors the source's structure: the opaque shape is built
first and replaced by the structured shape when the downcast to
`JSError` succeeds. -/
def serialize_worker_event (event : WorkerEvent) : JValue :=
  match event with
  | WorkerEvent.Message buf =>
      JValue.obj [("type", JValue.str "msg"), ("data", jsonOfBytes buf)]
  | WorkerEvent.TerminalError error =>
      let serialized_error :=
        JValue.obj [("type", JValue.str "terminalError"),
          ("error", JValue.obj [("message", JValue.str error.message)])]
      match error.downcastJSError with
      | Except.ok js_error =>
          JValue.obj [("type", JValue.str "terminalError"),
            ("error", JValue.obj
              [("message", JValue.str js_error.message),
               ("fileName", JValue.str js_error.script_resource_name),
               ("lineNumber", JValue.num js_error.line_number),
               ("columnNumber", JValue.num js_error.start_column)])]
      | Except.error _ => serialized_error
  | WorkerEvent.Error error =>
      let serialized_error :=
        JValue.obj [("type", JValue.str "error"),
          ("error", JValue.obj [("message", JValue.str error.message)])]
      match error.downcastJSError with
      | Except.ok js_error =>
          JValue.obj [("type", JValue.str "error"),
            ("error", JValue.obj
              [("message", JValue.str js_error.message),
               ("fileName", JValue.str js_error.script_resource_name),
               ("lineNumber", JValue.num js_error.line_number),
               ("columnNumber", JValue.num js_error.start_column)])]
      | Except.error _ => serialized_error

/-- The async block of `op_host_get_message`, resumed once the awaited
`get_event` yields: given the session state at resume time, the id and
the event (`none` means the channel closed with no pending event).  On
a terminal error the entry, if still present, is removed, its channel
closed and its thread joined before the serialized event is returned;
on `none` the same teardown runs and the close message is returned. -/
def get_message_resume (st : HostState) (id : Nat) (ev : Option WorkerEvent) :
    OpStep JValue :=
  match ev with
  | some (WorkerEvent.TerminalError e) =>
      match tableRemove st.workers id with
      | some (entry, rest) =>
          ⟨{ st with workers := rest },
           OpResult.ok (serialize_worker_event (WorkerEvent.TerminalError e)),
           [HostEffect.closeChannel id,
            HostEffect.joinThread entry.joinHandle]⟩
      | none =>
          ⟨st,
           OpResult.ok (serialize_worker_event (WorkerEvent.TerminalError e)),
           []⟩
  | some event =>
      ⟨st, OpResult.ok (serialize_worker_event event), []⟩
  | none =>
      match tableRemove st.workers id with
      | some (entry, rest) =>
          ⟨{ st with workers := rest },
           OpResult.ok (JValue.obj [("type", JValue.str "close")]),
           [HostEffect.closeChannel id,
            HostEffect.joinThread entry.joinHandle]⟩
      | none =>
          ⟨st, OpResult.ok (JValue.obj [("type", JValue.str "close")]), []⟩

/-- `op_host_get_message` as a whole step: the synchronous part looks
the handle up (panicking via `expect` when the id is absent), then the
async part resumes with the awaited event.  Here the resume runs
against the same state; `get_message_resume` is the resume path alone,
usable against whatever state exists when the future is polled. -/
def op_host_get_message (st : HostState) (idArg : Int)
    (ev : Option WorkerEvent) : OpStep JValue :=
  match tableGet st.workers (asU32 idArg) with
  | none => ⟨st, OpResult.panicked "No worker handle found", []⟩
  | some _ => get_message_resume st (asU32 idArg) ev

/-- `op_host_post_message`: asserts exactly one zero-copy buffer, looks
the handle up (panicking via `expect` when the id is absent), and posts
the buffer; a closed channel surfaces as an error result. -/
def op_host_post_message (st : HostState) (idArg : Int)
    (data : List ByteBuf) : OpStep Unit :=
  match data with
  | [buf] =>
      match tableGet st.workers (asU32 idArg) with
      | none => ⟨st, OpResult.panicked "No worker handle found", []⟩
      | some entry =>
          if entry.handle.senderClosed then
            ⟨st, OpResult.err "channel closed", []⟩
          else
            ⟨st, OpResult.ok (), [HostEffect.sentMessage (asU32 idArg) buf]⟩
  | _ => ⟨st, OpResult.panicked "Invalid number of arguments", []⟩

/-- The deserialized arguments of `op_create_worker`
(`CreateWorkerArgs`). -/
structure CreateWorkerArgs where
  name : Option String
  specifier : String
  has_source_code : Bool
  source_code : String
  use_deno_namespace : Bool
  import_map : Option String
deriving DecidableEq

/-- The inline-source selection made by `op_create_worker`:
`Some(source_code)` exactly when `has_source_code` is set. -/
def maybe_source_code (args : CreateWorkerArgs) : Option String :=
  if args.has_source_code then some args.source_code else none

/-- Oracle for the external collaborators `op_create_worker` consumes:
whether the unstable-feature opt-in was given (`check_unstable` is
vendor code; modelled from the spec: privileged namespace without prior
opt-in fails creation synchronously, producing no id and no thread),
how `ModuleSpecifier::resolve_url` answers, and the result of
constructing the worker's execution environment on the spawned thread
(`create_web_worker`). -/
structure CreateEnv where
  unstableAllowed : Bool
  resolveUrl : String → Except ErrBox String
  createWorkerResult : Except ErrBox WebWorker

/-- `run_worker_thread`: spawns the worker thread and performs the
one-shot handshake.  The spawned thread constructs the worker; on
failure it sends the error through the handshake channel and exits, on
success it sends the thread-safe handle.  The spawning call receives
the handshake value and propagates an error with `?`; on success it
returns the join handle (an abstract number naming the spawned thread)
paired with the worker handle. -/
def run_worker_thread (cww : Except ErrBox WebWorker) (joinId : Nat) :
    Except ErrBox (Nat × WorkerHandle) :=
  let handshakeMsg : Except ErrBox WorkerHandle :=
    match cww with
    | Except.error err => Except.error err
    | Except.ok w => Except.ok w.thread_safe_handle
  match handshakeMsg with
  | Except.error e => Except.error e
  | Except.ok h => Except.ok (joinId, h)

/-- `op_create_worker`: checks the unstable opt-in when the privileged
namespace is requested, allocates the next worker id (incrementing the
session counter), resolves the specifier, launches the worker thread,
and on success inserts `(join_handle, worker_handle)` under the new id
and returns the id.  Resolution and launch failures are mapped to error
results after the counter has already advanced. -/
def op_create_worker (env : CreateEnv) (st : HostState)
    (args : CreateWorkerArgs) (joinId : Nat) : OpStep Nat :=
  if args.use_deno_namespace && !env.unstableAllowed then
    ⟨st, OpResult.panicked "Unstable API: Worker.deno", []⟩
  else
    match env.resolveUrl args.specifier with
    | Except.error e =>
        ⟨{ st with next_worker_id := st.next_worker_id + 1 },
         OpResult.err e.message, []⟩
    | Except.ok _ =>
        match run_worker_thread env.createWorkerResult joinId with
        | Except.error e =>
            ⟨{ st with next_worker_id := st.next_worker_id + 1 },
             OpResult.err e.message, []⟩
        | Except.ok (join_handle, worker_handle) =>
            ⟨{ st with
                next_worker_id := st.next_worker_id + 1,
                workers := tableInsert st.workers st.next_worker_id
                  ⟨join_handle, worker_handle⟩ },
             OpResult.ok st.next_worker_id, []⟩

/-- Oracle for what the spawned worker thread's own runtime does after
the handshake: the result of executing inline source
(`worker.execute`), of loading and evaluating the module
(`block_on(worker.execute_module(..))`), whether `try_send` on the
event channel succeeds, and the result of driving the run loop
(`block_on(worker)`). -/
structure WorkerRunEnv where
  executeResult : Except ErrBox Unit
  executeModuleResult : Except ErrBox Unit
  sendOk : Bool
  runLoopResult : Except ErrBox Unit

/-- How the worker thread ends: the events this code path itself sent
on the handle's outbound channel (in order), whether it entered the
normal run loop, and the panic message if it died by `expect`. -/
structure ThreadExit where
  sentEvents : List WorkerEvent
  enteredRunLoop : Bool
  panicMsg : Option String
deriving DecidableEq

/-- The worker thread's initial evaluation after a successful
handshake: execute the inline source when one was provided, otherwise
load and evaluate the module from the specifier. -/
def worker_initial_eval (renv : WorkerRunEnv) (maybeSource : Option String) :
    Except ErrBox Unit :=
  match maybeSource with
  | some _ => renv.executeResult
  | none => renv.executeModuleResult

/-- The worker thread's body after a successful handshake: run the
initial evaluation; on failure send exactly one `TerminalError` on the
outbound channel (a failed send is an `expect` panic, not recovered)
and exit without entering the run loop; on success drive the run loop
(whose own failure is the `expect` panic at `block_on(worker)`). -/
def worker_thread_body (renv : WorkerRunEnv) (maybeSource : Option String) :
    ThreadExit :=
  match worker_initial_eval renv maybeSource with
  | Except.error e =>
      if renv.sendOk then
        ⟨[WorkerEvent.TerminalError e], false, none⟩
      else
        ⟨[], false, some "Failed to post message to host"⟩
  | Except.ok _ =>
      match renv.runLoopResult with
      | Except.ok _ => ⟨[], true, none⟩
      | Except.error _ => ⟨[], true, some "Panic in event loop"⟩

/-- Whether an event is a `TerminalError`. -/
def isTerminalErrorEv (ev : WorkerEvent) : Bool :=
  match ev with
  | WorkerEvent.TerminalError _ => true
  | _ => false

/-- Whether an event is a `Message`. -/
def isMessageEv (ev : WorkerEvent) : Bool :=
  match ev with
  | WorkerEvent.Message _ => true
  | _ => false

/-- One host-session action: an invocation of one of the four ops, with
the oracle answers it consumes. -/
inductive SessionAction where
  | create (env : CreateEnv) (args : CreateWorkerArgs) (joinId : Nat)
  | terminate (idArg : Int)
  | getMsg (idArg : Int) (ev : Option WorkerEvent)
  | post (idArg : Int) (data : List ByteBuf)

/-- The session state after one action. -/
def stepState (st : HostState) (a : SessionAction) : HostState :=
  match a with
  | SessionAction.create env args joinId =>
      (op_create_worker env st args joinId).state
  | SessionAction.terminate idArg => (op_host_terminate_worker st idArg).state
  | SessionAction.getMsg idArg ev => (op_host_get_message st idArg ev).state
  | SessionAction.post idArg data => (op_host_post_message st idArg data).state

/-- The worker id returned by an action, when the action is a create
that succeeds. -/
def stepCreatedId (st : HostState) (a : SessionAction) : Option Nat :=
  match a with
  | SessionAction.create env args joinId =>
      match (op_create_worker env st args joinId).result with
      | OpResult.ok i => some i
      | _ => none
  | _ => none

/-- Run a sequence of session actions: the final state together with
the ids returned by the successful creations, in order. -/
def runSession (st : HostState) (acts : List SessionAction) :
    HostState × List Nat :=
  match acts with
  | [] => (st, [])
  | a :: rest =>
      match stepCreatedId st a with
      | some i =>
          ((runSession (stepState st a) rest).1,
           i :: (runSession (stepState st a) rest).2)
      | none => runSession (stepState st a) rest

/-- All keys of the worker table are below `n` (the session counter
invariant). -/
def tableKeysBelow (t : List (Nat × WorkerEntry)) (n : Nat) : Prop :=
  ∀ p ∈ t, p.1 < n

theorem tableRemove_of_get_none (t : List (Nat × WorkerEntry)) (k : Nat)
    (h : tableGet t k = none) : tableRemove t k = none := by
  induction t with
  | nil => simp [tableRemove]
  | cons hd tl ih =>
      obtain ⟨k0, v⟩ := hd
      by_cases hk : k0 = k
      · simp [tableGet, hk] at h
      · simp [tableGet, hk] at h
        simp [tableRemove, hk, ih h]

theorem tableRemove_of_get_some (t : List (Nat × WorkerEntry)) (k : Nat)
    (e : WorkerEntry) (h : tableGet t k = some e) :
    ∃ rest, tableRemove t k = some (e, rest) := by
  induction t with
  | nil => simp [tableGet] at h
  | cons hd tl ih =>
      obtain ⟨k0, v⟩ := hd
      by_cases hk : k0 = k
      · simp [tableGet, hk] at h
        exact ⟨tl, by simp [tableRemove, hk, h]⟩
      · simp [tableGet, hk] at h
        obtain ⟨rest, hrest⟩ := ih h
        exact ⟨(k0, v) :: rest, by simp [tableRemove, hk, hrest]⟩

theorem tableRemove_mem (t : List (Nat × WorkerEntry)) (k : Nat)
    (e : WorkerEntry) (rest : List (Nat × WorkerEntry))
    (h : tableRemove t k = some (e, rest)) : ∀ p ∈ rest, p ∈ t := by
  induction t generalizing rest with
  | nil => simp [tableRemove] at h
  | cons hd tl ih =>
      obtain ⟨k0, v⟩ := hd
      by_cases hk : k0 = k
      · simp [tableRemove, hk] at h
        intro p hp
        exact List.mem_cons_of_mem _ (h.2 ▸ hp)
      · simp [tableRemove, hk] at h
        cases hr : tableRemove tl k with
        | none => simp [hr] at h
        | some q =>
            obtain ⟨e0, rest0⟩ := q
            simp [hr] at h
            intro p hp
            rw [← h.2] at hp
            rcases List.mem_cons.mp hp with h1 | h1
            · exact List.mem_cons.mpr (Or.inl h1)
            · exact List.mem_cons_of_mem _ (ih rest0 (h.1 ▸ hr) p h1)

theorem tableGet_eq_none_of_not_mem_keys (t : List (Nat × WorkerEntry))
    (k : Nat) (h : k ∉ t.map Prod.fst) : tableGet t k = none := by
  induction t with
  | nil => simp [tableGet]
  | cons hd tl ih =>
      obtain ⟨k0, v⟩ := hd
      rw [List.map_cons, List.mem_cons] at h
      push_neg at h
      have hne : k0 ≠ k := fun hc => h.1 hc.symm
      simp [tableGet, hne, ih h.2]

theorem tableRemove_nodup_get_none (t : List (Nat × WorkerEntry)) (k : Nat)
    (e : WorkerEntry) (rest : List (Nat × WorkerEntry))
    (hn : (t.map Prod.fst).Nodup) (h : tableRemove t k = some (e, rest)) :
    tableGet rest k = none := by
  induction t generalizing rest with
  | nil => simp [tableRemove] at h
  | cons hd tl ih =>
      obtain ⟨k0, v⟩ := hd
      rw [List.map_cons, List.nodup_cons] at hn
      by_cases hk : k0 = k
      · simp [tableRemove, hk] at h
        subst hk
        rw [← h.2]
        exact tableGet_eq_none_of_not_mem_keys tl k0 hn.1
      · simp [tableRemove, hk] at h
        cases hr : tableRemove tl k with
        | none => simp [hr] at h
        | some q =>
            obtain ⟨e0, rest0⟩ := q
            simp [hr] at h
            rw [← h.2]
            simp [tableGet, hk, ih rest0 hn.2 (h.1 ▸ hr)]

theorem tableGet_of_remove (t : List (Nat × WorkerEntry)) (k : Nat)
    (e : WorkerEntry) (rest : List (Nat × WorkerEntry))
    (h : tableRemove t k = some (e, rest)) : tableGet t k = some e := by
  induction t generalizing rest with
  | nil => simp [tableRemove] at h
  | cons hd tl ih =>
      obtain ⟨k0, v⟩ := hd
      by_cases hk : k0 = k
      · simp [tableRemove, hk] at h
        simp [tableGet, hk, h.1]
      · simp [tableRemove, hk] at h
        cases hr : tableRemove tl k with
        | none => simp [hr] at h
        | some q =>
            obtain ⟨e0, rest0⟩ := q
            simp [hr] at h
            simp [tableGet, hk, ih rest0 (h.1 ▸ hr)]

theorem tableGet_none_of_keysBelow (t : List (Nat × WorkerEntry)) (n : Nat)
    (h : tableKeysBelow t n) : tableGet t n = none := by
  apply tableGet_eq_none_of_not_mem_keys
  intro hc
  rcases List.mem_map.mp hc with ⟨p, hp, hfst⟩
  exact absurd (hfst ▸ h p hp) (lt_irrefl n)

theorem get_message_resume_absent (st : HostState) (id : Nat)
    (ev : Option WorkerEvent) (h : tableGet st.workers id = none) :
    (get_message_resume st id ev).state = st ∧
    (get_message_resume st id ev).effects = [] := by
  have hr : tableRemove st.workers id = none := tableRemove_of_get_none _ _ h
  cases ev with
  | none => simp [get_message_resume, hr]
  | some event => cases event <;> simp [get_message_resume, hr]

theorem terminate_absent (st : HostState) (idArg : Int)
    (h : tableGet st.workers (asU32 idArg) = none) :
    op_host_terminate_worker st idArg =
      ⟨st, OpResult.panicked "No worker handle found", []⟩ := by
  simp [op_host_terminate_worker, tableRemove_of_get_none _ _ h]

theorem terminate_present (st : HostState) (idArg : Int) (entry : WorkerEntry)
    (rest : List (Nat × WorkerEntry))
    (h : tableRemove st.workers (asU32 idArg) = some (entry, rest)) :
    op_host_terminate_worker st idArg =
      ⟨{ st with workers := rest }, OpResult.ok (),
       [HostEffect.terminateSignal (asU32 idArg),
        HostEffect.joinThread entry.joinHandle]⟩ := by
  simp [op_host_terminate_worker, h]

theorem get_message_resume_terminal (st : HostState) (id : Nat)
    (entry : WorkerEntry) (rest : List (Nat × WorkerEntry)) (e : ErrBox)
    (h : tableRemove st.workers id = some (entry, rest)) :
    get_message_resume st id (some (WorkerEvent.TerminalError e)) =
      ⟨{ st with workers := rest },
       OpResult.ok (serialize_worker_event (WorkerEvent.TerminalError e)),
       [HostEffect.closeChannel id, HostEffect.joinThread entry.joinHandle]⟩ := by
  simp [get_message_resume, h]

theorem get_message_resume_closed (st : HostState) (id : Nat)
    (entry : WorkerEntry) (rest : List (Nat × WorkerEntry))
    (h : tableRemove st.workers id = some (entry, rest)) :
    get_message_resume st id none =
      ⟨{ st with workers := rest },
       OpResult.ok (JValue.obj [("type", JValue.str "close")]),
       [HostEffect.closeChannel id, HostEffect.joinThread entry.joinHandle]⟩ := by
  simp [get_message_resume, h]

/-- Claim C7: serializing a worker event is a pure function with this
exact mapping: `Message(bytes)` maps to the `msg` shape carrying the
bytes; `Error`/`TerminalError` map to the `error`/`terminalError`
shapes whose `error` field carries `message`, `fileName`, `lineNumber`
and `columnNumber` when the error downcasts to a structured script
error, and only `message` otherwise. -/
theorem serialize_worker_event_mapping :
    (∀ buf : ByteBuf,
      serialize_worker_event (WorkerEvent.Message buf) =
        JValue.obj [("type", JValue.str "msg"), ("data", jsonOfBytes buf)]) ∧
    (∀ e : ErrBox, ∀ js : JSErrorData, e.jsError = some js →
      serialize_worker_event (WorkerEvent.TerminalError e) =
        JValue.obj [("type", JValue.str "terminalError"),
          ("error", JValue.obj
            [("message", JValue.str js.message),
             ("fileName", JValue.str js.script_resource_name),
             ("lineNumber", JValue.num js.line_number),
             ("columnNumber", JValue.num js.start_column)])] ∧
      serialize_worker_event (WorkerEvent.Error e) =
        JValue.obj [("type", JValue.str "error"),
          ("error", JValue.obj
            [("message", JValue.str js.message),
             ("fileName", JValue.str js.script_resource_name),
             ("lineNumber", JValue.num js.line_number),
             ("columnNumber", JValue.num js.start_column)])]) ∧
    (∀ e : ErrBox, e.jsError = none →
      serialize_worker_event (WorkerEvent.TerminalError e) =
        JValue.obj [("type", JValue.str "terminalError"),
          ("error", JValue.obj [("message", JValue.str e.message)])] ∧
      serialize_worker_event (WorkerEvent.Error e) =
        JValue.obj [("type", JValue.str "error"),
          ("error", JValue.obj [("message", JValue.str e.message)])]) := by
  refine ⟨fun buf => rfl, fun e js h => ?_, fun e h => ?_⟩
  · constructor <;> simp [serialize_worker_event, ErrBox.downcastJSError, h]
  · constructor <;> simp [serialize_worker_event, ErrBox.downcastJSError, h]

theorem serialize_worker_event_mapping_witness :
    serialize_worker_event
        (WorkerEvent.TerminalError ⟨"boom", some ⟨"m", "f.ts", 1, 2⟩⟩) =
      JValue.obj [("type", JValue.str "terminalError"),
        ("error", JValue.obj
          [("message", JValue.str "m"),
           ("fileName", JValue.str "f.ts"),
           ("lineNumber", JValue.num 1),
           ("columnNumber", JValue.num 2)])] :=
  (serialize_worker_event_mapping.2.1
    ⟨"boom", some ⟨"m", "f.ts", 1, 2⟩⟩ ⟨"m", "f.ts", 1, 2⟩ rfl).1

/-- Claim C1, counterexample: with the worker table empty, a terminate
request for id 0 is not a no-op returning none: the op fails — it
panics via `expect` with "No worker handle found" instead of returning
successfully. -/
theorem terminate_vanished_id_panics :
    (op_host_terminate_worker ⟨0, []⟩ 0).result =
      OpResult.panicked "No worker handle found" ∧
    (op_host_terminate_worker ⟨0, []⟩ 0).result ≠ OpResult.ok () := by
  decide

/-- Claim C1 (amended): for every id absent from the worker table, the
teardown path inside get_event is a no-op — state unchanged, no join,
no other effect; the reclaim in terminate_worker, however, is not a
no-op returning none on a vanished id: it panics via `expect`,
performing no removal and no join.  When an explicit termination and
get_event's teardown race on the same id (the table's keys being
distinct, as for a hash map), exactly one performs the removal and
join: after a winning terminate, the teardown is a silent no-op, and
after a winning teardown, terminate panics without joining. -/
theorem reclaim_vanished_id (st : HostState) (idArg : Int)
    (ev : Option WorkerEvent)
    (habsent : tableGet st.workers (asU32 idArg) = none) :
    ((get_message_resume st (asU32 idArg) ev).state = st ∧
     (get_message_resume st (asU32 idArg) ev).effects = []) ∧
    op_host_terminate_worker st idArg =
      ⟨st, OpResult.panicked "No worker handle found", []⟩ ∧
    (∀ st2 : HostState, ∀ entry : WorkerEntry,
     ∀ rest : List (Nat × WorkerEntry),
      (st2.workers.map Prod.fst).Nodup →
      tableRemove st2.workers (asU32 idArg) = some (entry, rest) →
      ((op_host_terminate_worker st2 idArg).effects =
         [HostEffect.terminateSignal (asU32 idArg),
          HostEffect.joinThread entry.joinHandle] ∧
       (get_message_resume (op_host_terminate_worker st2 idArg).state
          (asU32 idArg) ev).state =
         (op_host_terminate_worker st2 idArg).state ∧
       (get_message_resume (op_host_terminate_worker st2 idArg).state
          (asU32 idArg) ev).effects = []) ∧
      ∀ e : ErrBox,
        op_host_terminate_worker
            (get_message_resume st2 (asU32 idArg)
              (some (WorkerEvent.TerminalError e))).state idArg =
          ⟨(get_message_resume st2 (asU32 idArg)
              (some (WorkerEvent.TerminalError e))).state,
           OpResult.panicked "No worker handle found", []⟩) := by
  refine ⟨get_message_resume_absent st _ ev habsent,
          terminate_absent st idArg habsent, ?_⟩
  intro st2 entry rest hnodup hrem
  have hterm := terminate_present st2 idArg entry rest hrem
  have hrest : tableGet rest (asU32 idArg) = none :=
    tableRemove_nodup_get_none _ _ _ _ hnodup hrem
  constructor
  · rw [hterm]
    exact ⟨rfl, (get_message_resume_absent _ _ ev hrest).1,
           (get_message_resume_absent _ _ ev hrest).2⟩
  · intro e
    rw [get_message_resume_terminal st2 (asU32 idArg) entry rest e hrem]
    exact terminate_absent _ idArg hrest

theorem reclaim_vanished_id_witness :
    (get_message_resume ⟨5, []⟩ (asU32 3) none).state = (⟨5, []⟩ : HostState) ∧
    op_host_terminate_worker ⟨5, []⟩ 3 =
      ⟨⟨5, []⟩, OpResult.panicked "No worker handle found", []⟩ :=
  ⟨(reclaim_vanished_id ⟨5, []⟩ 3 none rfl).1.1,
   (reclaim_vanished_id ⟨5, []⟩ 3 none rfl).2.1⟩

/-- Claim C4: for a worker id present in the table, when the awaited
get_event yields a TerminalError the host removes the entry, closes the
handle's send side and joins the thread before returning the serialized
event; when it yields none (channel closed, natural completion) the
same removal, close and join happen and the close message is returned;
and both teardown paths are no-ops when an explicit termination already
removed the entry. -/
theorem get_message_teardown (st : HostState) (id : Nat)
    (entry : WorkerEntry) (rest : List (Nat × WorkerEntry))
    (hrem : tableRemove st.workers id = some (entry, rest)) :
    tableGet st.workers id = some entry ∧
    (∀ e : ErrBox,
      get_message_resume st id (some (WorkerEvent.TerminalError e)) =
        ⟨{ st with workers := rest },
         OpResult.ok (serialize_worker_event (WorkerEvent.TerminalError e)),
         [HostEffect.closeChannel id,
          HostEffect.joinThread entry.joinHandle]⟩) ∧
    get_message_resume st id none =
      ⟨{ st with workers := rest },
       OpResult.ok (JValue.obj [("type", JValue.str "close")]),
       [HostEffect.closeChannel id, HostEffect.joinThread entry.joinHandle]⟩ ∧
    (∀ st2 : HostState, ∀ ev : Option WorkerEvent,
      tableGet st2.workers id = none →
      (get_message_resume st2 id ev).state = st2 ∧
      (get_message_resume st2 id ev).effects = []) :=
  ⟨tableGet_of_remove _ _ _ _ hrem,
   fun e => get_message_resume_terminal st id entry rest e hrem,
   get_message_resume_closed st id entry rest hrem,
   fun st2 ev h => get_message_resume_absent st2 id ev h⟩

theorem get_message_teardown_witness :
    get_message_resume ⟨1, [(0, ⟨7, ⟨false⟩⟩)]⟩ 0 none =
      ⟨⟨1, []⟩, OpResult.ok (JValue.obj [("type", JValue.str "close")]),
       [HostEffect.closeChannel 0, HostEffect.joinThread 7]⟩ :=
  (get_message_teardown ⟨1, [(0, ⟨7, ⟨false⟩⟩)]⟩ 0 ⟨7, ⟨false⟩⟩ [] rfl).2.2.1

/-- Claim C5, counterexample: a post_message naming a worker that no
longer exists (empty table, id 0, one well-formed buffer) is not
surfaced to the caller as a normal error result: the op panics via
`expect` — a crash of the host op, not an error return. -/
theorem post_message_absent_id_crashes :
    (op_host_post_message ⟨0, []⟩ 0 [[1, 2]]).result =
      OpResult.panicked "No worker handle found" ∧
    (op_host_post_message ⟨0, []⟩ 0 [[1, 2]]).result ≠
      OpResult.err "channel closed" ∧
    (op_host_post_message ⟨0, []⟩ 0 [[1, 2]]).result ≠ OpResult.ok () := by
  decide

/-- Claim C5 (amended): a post_message naming a worker whose table
entry is still present but whose channel is already closed (the worker
terminated) surfaces the failure as a normal closed-channel error
result, never silently dropped; but a post_message naming an id absent
from the table (already reclaimed) panics via `expect` rather than
returning an error. -/
theorem post_message_failure_modes (st : HostState) (idArg : Int)
    (buf : ByteBuf) (entry : WorkerEntry) :
    (tableGet st.workers (asU32 idArg) = some entry →
     entry.handle.senderClosed = true →
     op_host_post_message st idArg [buf] =
       ⟨st, OpResult.err "channel closed", []⟩) ∧
    (tableGet st.workers (asU32 idArg) = none →
     op_host_post_message st idArg [buf] =
       ⟨st, OpResult.panicked "No worker handle found", []⟩) := by
  constructor
  · intro hget hclosed
    simp [op_host_post_message, hget, hclosed]
  · intro hget
    simp [op_host_post_message, hget]

theorem post_message_failure_modes_witness :
    op_host_post_message ⟨1, [(0, ⟨7, ⟨true⟩⟩)]⟩ 0 [[9]] =
      ⟨⟨1, [(0, ⟨7, ⟨true⟩⟩)]⟩, OpResult.err "channel closed", []⟩ :=
  (post_message_failure_modes ⟨1, [(0, ⟨7, ⟨true⟩⟩)]⟩ 0 [9] ⟨7, ⟨true⟩⟩).1
    rfl rfl

/-- Claim C10: post_message requires exactly one zero-copy buffer:
with any other buffer count the op asserts (panics) without touching
the worker table — same outcome whatever the session state; with
exactly one buffer the asserting branch is unreachable and the payload
delivered to the worker is byte-for-byte that buffer. -/
theorem post_message_single_buffer (st st2 : HostState) (idArg : Int)
    (data : List ByteBuf) (buf : ByteBuf) (entry : WorkerEntry) :
    (data.length ≠ 1 →
      op_host_post_message st idArg data =
        ⟨st, OpResult.panicked "Invalid number of arguments", []⟩ ∧
      (op_host_post_message st idArg data).result =
        (op_host_post_message st2 idArg data).result) ∧
    (tableGet st.workers (asU32 idArg) = some entry →
     entry.handle.senderClosed = false →
     op_host_post_message st idArg [buf] =
       ⟨st, OpResult.ok (), [HostEffect.sentMessage (asU32 idArg) buf]⟩) := by
  constructor
  · intro hlen
    have hshape : op_host_post_message st idArg data =
        ⟨st, OpResult.panicked "Invalid number of arguments", []⟩ := by
      match data with
      | [] => rfl
      | [b] => exact absurd rfl hlen
      | b1 :: b2 :: rest => rfl
    have hshape2 : op_host_post_message st2 idArg data =
        ⟨st2, OpResult.panicked "Invalid number of arguments", []⟩ := by
      match data with
      | [] => rfl
      | [b] => exact absurd rfl hlen
      | b1 :: b2 :: rest => rfl
    exact ⟨hshape, by rw [hshape, hshape2]⟩
  · intro hget hopen
    simp [op_host_post_message, hget, hopen]

theorem post_message_single_buffer_witness :
    op_host_post_message ⟨2, []⟩ 0 [] =
      ⟨⟨2, []⟩, OpResult.panicked "Invalid number of arguments", []⟩ ∧
    op_host_post_message ⟨1, [(0, ⟨7, ⟨false⟩⟩)]⟩ 0 [[3, 4]] =
      ⟨⟨1, [(0, ⟨7, ⟨false⟩⟩)]⟩, OpResult.ok (),
       [HostEffect.sentMessage (asU32 0) [3, 4]]⟩ :=
  ⟨((post_message_single_buffer ⟨2, []⟩ ⟨2, []⟩ 0 [] [] ⟨7, ⟨false⟩⟩).1
      (by decide)).1,
   (post_message_single_buffer ⟨1, [(0, ⟨7, ⟨false⟩⟩)]⟩ ⟨1, []⟩ 0 []
      [3, 4] ⟨7, ⟨false⟩⟩).2 rfl rfl⟩

/-- Claim C2: worker creation is atomic on failure.  When constructing
the worker's execution environment fails, the error is carried back
through the one-shot handshake channel (run_worker_thread yields that
very error), the creating call returns it synchronously as an error
result, the caller never receives a handle (no id is ever returned
ok), and the worker table is left unchanged — no entry for the
allocated id is ever inserted. -/
theorem create_failure_atomic (env : CreateEnv) (st : HostState)
    (args : CreateWorkerArgs) (joinId : Nat) (e : ErrBox) (s : String)
    (hok : args.use_deno_namespace = false ∨ env.unstableAllowed = true)
    (hres : env.resolveUrl args.specifier = Except.ok s)
    (hfail : env.createWorkerResult = Except.error e) :
    run_worker_thread env.createWorkerResult joinId = Except.error e ∧
    (op_create_worker env st args joinId).result = OpResult.err e.message ∧
    (∀ i : Nat,
      (op_create_worker env st args joinId).result ≠ OpResult.ok i) ∧
    (op_create_worker env st args joinId).state.workers = st.workers := by
  have hrun : run_worker_thread env.createWorkerResult joinId =
      Except.error e := by
    simp [run_worker_thread, hfail]
  have hcond : (args.use_deno_namespace && !env.unstableAllowed) = false := by
    rcases hok with h | h <;> simp [h]
  refine ⟨hrun, ?_, ?_, ?_⟩ <;> simp [op_create_worker, hcond, hres, hrun]

theorem create_failure_atomic_witness :
    (op_create_worker
        ⟨true, fun s => Except.ok s, Except.error ⟨"construction failed", none⟩⟩
        ⟨0, []⟩ ⟨none, "spec", false, "", false, none⟩ 0).result =
      OpResult.err "construction failed" ∧
    (op_create_worker
        ⟨true, fun s => Except.ok s, Except.error ⟨"construction failed", none⟩⟩
        ⟨0, []⟩ ⟨none, "spec", false, "", false, none⟩ 0).state.workers = [] :=
  ⟨(create_failure_atomic
      ⟨true, fun s => Except.ok s, Except.error ⟨"construction failed", none⟩⟩
      ⟨0, []⟩ ⟨none, "spec", false, "", false, none⟩ 0
      ⟨"construction failed", none⟩ "spec" (Or.inr rfl) rfl rfl).2.1,
   (create_failure_atomic
      ⟨true, fun s => Except.ok s, Except.error ⟨"construction failed", none⟩⟩
      ⟨0, []⟩ ⟨none, "spec", false, "", false, none⟩ 0
      ⟨"construction failed", none⟩ "spec" (Or.inr rfl) rfl rfl).2.2.2⟩

/-- Claim C6: for every worker whose initial inline-source execution or
module evaluation fails, exactly one TerminalError event carrying that
error is sent on the handle's outbound channel, no Message event is
produced, and the thread exits without entering its normal run loop;
and a send failure at that point is an `expect` panic (treated as a
bug), not recovered. -/
theorem eval_failure_terminal_event (renv : WorkerRunEnv)
    (ms : Option String) (e : ErrBox)
    (hfail : worker_initial_eval renv ms = Except.error e) :
    (renv.sendOk = true →
      worker_thread_body renv ms =
        ⟨[WorkerEvent.TerminalError e], false, none⟩ ∧
      (worker_thread_body renv ms).sentEvents.countP
        (fun ev => isTerminalErrorEv ev) = 1 ∧
      (worker_thread_body renv ms).sentEvents.countP
        (fun ev => isMessageEv ev) = 0 ∧
      (worker_thread_body renv ms).enteredRunLoop = false) ∧
    (renv.sendOk = false →
      worker_thread_body renv ms =
        ⟨[], false, some "Failed to post message to host"⟩) := by
  constructor
  · intro hsend
    have hb : worker_thread_body renv ms =
        ⟨[WorkerEvent.TerminalError e], false, none⟩ := by
      simp [worker_thread_body, hfail, hsend]
    refine ⟨hb, ?_, ?_, ?_⟩ <;>
      rw [hb] <;> simp [isTerminalErrorEv, isMessageEv]
  · intro hsend
    simp [worker_thread_body, hfail, hsend]

theorem eval_failure_terminal_event_witness :
    worker_thread_body
        ⟨Except.ok (), Except.error ⟨"bad module", none⟩, true,
         Except.ok ()⟩ none =
      ⟨[WorkerEvent.TerminalError ⟨"bad module", none⟩], false, none⟩ :=
  ((eval_failure_terminal_event
      ⟨Except.ok (), Except.error ⟨"bad module", none⟩, true, Except.ok ()⟩
      none ⟨"bad module", none⟩ rfl).1 rfl).1

/-- Claim C8: the session id counter advances on every create_worker
attempt that reaches allocation, even when creation subsequently fails
(specifier resolution error or launch error): the failed creation
consumes the id — the counter is one higher, the table is unchanged
(the id is never inserted), the call returns an error result and in
particular never returns that id. -/
theorem failed_create_consumes_id (env : CreateEnv) (st : HostState)
    (args : CreateWorkerArgs) (joinId : Nat)
    (hok : args.use_deno_namespace = false ∨ env.unstableAllowed = true)
    (hfail : (∃ e, env.resolveUrl args.specifier = Except.error e) ∨
             (∃ e, env.createWorkerResult = Except.error e)) :
    (op_create_worker env st args joinId).state.next_worker_id =
      st.next_worker_id + 1 ∧
    (op_create_worker env st args joinId).state.workers = st.workers ∧
    (∃ msg, (op_create_worker env st args joinId).result =
      OpResult.err msg) ∧
    ∀ i : Nat,
      (op_create_worker env st args joinId).result ≠ OpResult.ok i := by
  have hcond : (args.use_deno_namespace && !env.unstableAllowed) = false := by
    rcases hok with h | h <;> simp [h]
  cases hres : env.resolveUrl args.specifier with
  | error e =>
      refine ⟨?_, ?_, ⟨e.message, ?_⟩, ?_⟩ <;>
        simp [op_create_worker, hcond, hres]
  | ok s =>
      rcases hfail with ⟨e, he⟩ | ⟨e, he⟩
      · rw [hres] at he
        cases he
      · have hrun : run_worker_thread env.createWorkerResult joinId =
            Except.error e := by
          simp [run_worker_thread, he]
        refine ⟨?_, ?_, ⟨e.message, ?_⟩, ?_⟩ <;>
          simp [op_create_worker, hcond, hres, hrun]

theorem failed_create_consumes_id_witness :
    (op_create_worker
        ⟨true, fun _ => Except.error ⟨"invalid URL", none⟩,
         Except.ok ⟨⟨false⟩⟩⟩
        ⟨4, []⟩ ⟨none, "bad spec", false, "", false, none⟩
        0).state.next_worker_id = 5 :=
  (failed_create_consumes_id
    ⟨true, fun _ => Except.error ⟨"invalid URL", none⟩, Except.ok ⟨⟨false⟩⟩⟩
    ⟨4, []⟩ ⟨none, "bad spec", false, "", false, none⟩ 0 (Or.inr rfl)
    (Or.inl ⟨⟨"invalid URL", none⟩, rfl⟩)).1

theorem asU32_idem (n : Int) : asU32 ((asU32 n : Nat) : Int) = asU32 n := by
  unfold asU32
  have h1 : 0 ≤ n % 4294967296 := Int.emod_nonneg n (by norm_num)
  omega

/-- Claim C9: every op taking a worker id deserializes it as a signed
32-bit integer and converts it with a wrapping cast to unsigned: for a
negative in-range id n the addressed worker id is n mod 2^32, i.e.
n + 2^32; each of terminate_worker, get_message and post_message
behaves on input n exactly as on the canonical unsigned residue; and
-1 addresses worker id 4294967295. -/
theorem worker_id_wrapping_cast :
    (∀ n : Int, -2147483648 ≤ n → n < 0 →
      (asU32 n : Int) = n + 4294967296) ∧
    (∀ n : Int, ∀ st : HostState, ∀ ev : Option WorkerEvent,
     ∀ data : List ByteBuf,
      op_host_terminate_worker st n =
        op_host_terminate_worker st ((asU32 n : Nat) : Int) ∧
      op_host_get_message st n ev =
        op_host_get_message st ((asU32 n : Nat) : Int) ev ∧
      op_host_post_message st n data =
        op_host_post_message st ((asU32 n : Nat) : Int) data) ∧
    asU32 (-1) = 4294967295 := by
  refine ⟨?_, ?_, by decide⟩
  · intro n h1 h2
    simp only [asU32]
    omega
  · intro n st ev data
    have hc := asU32_idem n
    refine ⟨?_, ?_, ?_⟩
    · unfold op_host_terminate_worker
      rw [hc]
    · unfold op_host_get_message
      rw [hc]
    · unfold op_host_post_message
      rw [hc]

theorem worker_id_wrapping_cast_witness :
    (asU32 (-1) : Int) = -1 + 4294967296 :=
  worker_id_wrapping_cast.1 (-1) (by norm_num) (by norm_num)

theorem create_next_cases (env : CreateEnv) (st : HostState)
    (args : CreateWorkerArgs) (joinId : Nat) :
    (op_create_worker env st args joinId).state.next_worker_id =
        st.next_worker_id ∨
    (op_create_worker env st args joinId).state.next_worker_id =
        st.next_worker_id + 1 := by
  by_cases hcond : (args.use_deno_namespace && !env.unstableAllowed) = true
  · left
    simp [op_create_worker, hcond]
  · rw [Bool.not_eq_true] at hcond
    cases hres : env.resolveUrl args.specifier with
    | error e =>
        right
        simp [op_create_worker, hcond, hres]
    | ok s =>
        cases hrun : run_worker_thread env.createWorkerResult joinId with
        | error e =>
            right
            simp [op_create_worker, hcond, hres, hrun]
        | ok p =>
            obtain ⟨jh, wh⟩ := p
            right
            simp [op_create_worker, hcond, hres, hrun]

theorem create_workers_mem (env : CreateEnv) (st : HostState)
    (args : CreateWorkerArgs) (joinId : Nat) :
    ∀ p ∈ (op_create_worker env st args joinId).state.workers,
      p ∈ st.workers ∨
      (p.1 = st.next_worker_id ∧
       (op_create_worker env st args joinId).state.next_worker_id =
         st.next_worker_id + 1) := by
  by_cases hcond : (args.use_deno_namespace && !env.unstableAllowed) = true
  · intro p hp
    simp [op_create_worker, hcond] at hp
    exact Or.inl hp
  · rw [Bool.not_eq_true] at hcond
    cases hres : env.resolveUrl args.specifier with
    | error e =>
        intro p hp
        simp [op_create_worker, hcond, hres] at hp
        exact Or.inl hp
    | ok s =>
        cases hrun : run_worker_thread env.createWorkerResult joinId with
        | error e =>
            intro p hp
            simp [op_create_worker, hcond, hres, hrun] at hp
            exact Or.inl hp
        | ok q =>
            obtain ⟨jh, wh⟩ := q
            intro p hp
            simp [op_create_worker, hcond, hres, hrun, tableInsert] at hp
            rcases hp with hp | hp
            · right
              constructor
              · rw [hp]
              · simp [op_create_worker, hcond, hres, hrun]
            · exact Or.inl hp

theorem terminate_next_eq (st : HostState) (idArg : Int) :
    (op_host_terminate_worker st idArg).state.next_worker_id =
      st.next_worker_id ∧
    ∀ p ∈ (op_host_terminate_worker st idArg).state.workers,
      p ∈ st.workers := by
  cases hr : tableRemove st.workers (asU32 idArg) with
  | none => simp [op_host_terminate_worker, hr]
  | some q =>
      obtain ⟨e, rest⟩ := q
      refine ⟨by simp [op_host_terminate_worker, hr], ?_⟩
      intro p hp
      simp [op_host_terminate_worker, hr] at hp
      exact tableRemove_mem _ _ _ _ hr p hp

theorem get_resume_next_eq (st : HostState) (id : Nat)
    (ev : Option WorkerEvent) :
    (get_message_resume st id ev).state.next_worker_id =
      st.next_worker_id ∧
    ∀ p ∈ (get_message_resume st id ev).state.workers, p ∈ st.workers := by
  cases ev with
  | none =>
      cases hr : tableRemove st.workers id with
      | none => simp [get_message_resume, hr]
      | some q =>
          obtain ⟨e, rest⟩ := q
          refine ⟨by simp [get_message_resume, hr], ?_⟩
          intro p hp
          simp [get_message_resume, hr] at hp
          exact tableRemove_mem _ _ _ _ hr p hp
  | some event =>
      cases event with
      | Message buf => simp [get_message_resume]
      | Error e => simp [get_message_resume]
      | TerminalError e =>
          cases hr : tableRemove st.workers id with
          | none => simp [get_message_resume, hr]
          | some q =>
              obtain ⟨entry, rest⟩ := q
              refine ⟨by simp [get_message_resume, hr], ?_⟩
              intro p hp
              simp [get_message_resume, hr] at hp
              exact tableRemove_mem _ _ _ _ hr p hp

theorem get_message_next_eq (st : HostState) (idArg : Int)
    (ev : Option WorkerEvent) :
    (op_host_get_message st idArg ev).state.next_worker_id =
      st.next_worker_id ∧
    ∀ p ∈ (op_host_get_message st idArg ev).state.workers,
      p ∈ st.workers := by
  cases hg : tableGet st.workers (asU32 idArg) with
  | none => simp [op_host_get_message, hg]
  | some entry =>
      have h := get_resume_next_eq st (asU32 idArg) ev
      simpa [op_host_get_message, hg] using h

theorem post_state_eq (st : HostState) (idArg : Int) (data : List ByteBuf) :
    (op_host_post_message st idArg data).state = st := by
  match data with
  | [] => rfl
  | [buf] =>
      cases hg : tableGet st.workers (asU32 idArg) with
      | none => simp [op_host_post_message, hg]
      | some entry =>
          by_cases hc : entry.handle.senderClosed <;>
            simp [op_host_post_message, hg, hc]
  | b1 :: b2 :: rest => rfl

theorem stepState_next_mono (st : HostState) (a : SessionAction) :
    st.next_worker_id ≤ (stepState st a).next_worker_id := by
  cases a with
  | create env args joinId =>
      rcases create_next_cases env st args joinId with h | h
      · simp only [stepState]
        rw [h]
      · simp only [stepState]
        rw [h]
        omega
  | terminate idArg =>
      simp only [stepState]
      rw [(terminate_next_eq st idArg).1]
  | getMsg idArg ev =>
      simp only [stepState]
      rw [(get_message_next_eq st idArg ev).1]
  | post idArg data =>
      simp only [stepState]
      rw [post_state_eq st idArg data]

theorem stepState_keysBelow (st : HostState) (a : SessionAction)
    (h : tableKeysBelow st.workers st.next_worker_id) :
    tableKeysBelow (stepState st a).workers
      (stepState st a).next_worker_id := by
  cases a with
  | create env args joinId =>
      intro p hp
      simp only [stepState] at hp ⊢
      rcases create_workers_mem env st args joinId p hp with hmem | hkey
      · have h1 := h p hmem
        rcases create_next_cases env st args joinId with h2 | h2 <;>
          · rw [h2]
            omega
      · rw [hkey.2, hkey.1]
        omega
  | terminate idArg =>
      intro p hp
      simp only [stepState] at hp ⊢
      rw [(terminate_next_eq st idArg).1]
      exact h p ((terminate_next_eq st idArg).2 p hp)
  | getMsg idArg ev =>
      intro p hp
      simp only [stepState] at hp ⊢
      rw [(get_message_next_eq st idArg ev).1]
      exact h p ((get_message_next_eq st idArg ev).2 p hp)
  | post idArg data =>
      intro p hp
      simp only [stepState] at hp ⊢
      rw [post_state_eq st idArg data] at hp ⊢
      exact h p hp

theorem stepCreatedId_eq (st : HostState) (a : SessionAction) (i : Nat)
    (h : stepCreatedId st a = some i) :
    i = st.next_worker_id ∧
    (stepState st a).next_worker_id = st.next_worker_id + 1 := by
  cases a with
  | terminate idArg => simp [stepCreatedId] at h
  | getMsg idArg ev => simp [stepCreatedId] at h
  | post idArg data => simp [stepCreatedId] at h
  | create env args joinId =>
      by_cases hcond : (args.use_deno_namespace && !env.unstableAllowed) = true
      · simp [stepCreatedId, op_create_worker, hcond] at h
      · rw [Bool.not_eq_true] at hcond
        cases hres : env.resolveUrl args.specifier with
        | error e =>
            simp [stepCreatedId, op_create_worker, hcond, hres] at h
        | ok s =>
            cases hrun : run_worker_thread env.createWorkerResult joinId with
            | error e =>
                simp [stepCreatedId, op_create_worker, hcond, hres, hrun] at h
            | ok q =>
                obtain ⟨jh, wh⟩ := q
                simp [stepCreatedId, stepState, op_create_worker,
                  hcond, hres, hrun] at h ⊢
                exact h.symm

theorem runSession_ids_lb (acts : List SessionAction) :
    ∀ st : HostState, ∀ i ∈ (runSession st acts).2,
      st.next_worker_id ≤ i := by
  induction acts with
  | nil =>
      intro st i hi
      simp [runSession] at hi
  | cons a rest ih =>
      intro st i hi
      have hmono := stepState_next_mono st a
      cases hc : stepCreatedId st a with
      | none =>
          simp only [runSession, hc] at hi
          exact le_trans hmono (ih (stepState st a) i hi)
      | some j =>
          simp only [runSession, hc] at hi
          rcases List.mem_cons.mp hi with hi | hi
          · rw [hi, (stepCreatedId_eq st a j hc).1]
          · exact le_trans hmono (ih (stepState st a) i hi)

theorem runSession_pairwise (acts : List SessionAction) :
    ∀ st : HostState, List.Pairwise (· < ·) (runSession st acts).2 := by
  induction acts with
  | nil =>
      intro st
      simp [runSession]
  | cons a rest ih =>
      intro st
      cases hc : stepCreatedId st a with
      | none =>
          simp only [runSession, hc]
          exact ih (stepState st a)
      | some j =>
          simp only [runSession, hc]
          refine List.Pairwise.cons ?_ (ih (stepState st a))
          intro i hi
          have hlb := runSession_ids_lb rest (stepState st a) i hi
          have hj := stepCreatedId_eq st a j hc
          omega

theorem runSession_keysBelow (acts : List SessionAction) :
    ∀ st : HostState, tableKeysBelow st.workers st.next_worker_id →
    tableKeysBelow (runSession st acts).1.workers
      (runSession st acts).1.next_worker_id := by
  induction acts with
  | nil =>
      intro st h
      simpa [runSession] using h
  | cons a rest ih =>
      intro st h
      have h2 := stepState_keysBelow st a h
      cases hc : stepCreatedId st a with
      | none =>
          simp only [runSession, hc]
          exact ih _ h2
      | some j =>
          simp only [runSession, hc]
          exact ih _ h2

/-- Claim C3: worker ids are allocated by a strictly increasing counter
held in host session state: over any sequence of session actions, the
ids returned by the successful creations are strictly increasing (so an
id is never reused, even after its entry is removed); every successful
creation returns the current counter value, which under the session
invariant (all live ids below the counter) differs from every
currently-live id; and every session action preserves that
invariant. -/
theorem worker_ids_strictly_increasing (st : HostState)
    (acts : List SessionAction)
    (hinv : tableKeysBelow st.workers st.next_worker_id) :
    List.Pairwise (· < ·) (runSession st acts).2 ∧
    tableKeysBelow (runSession st acts).1.workers
      (runSession st acts).1.next_worker_id ∧
    (∀ st2 : HostState, ∀ a : SessionAction, ∀ i : Nat,
      tableKeysBelow st2.workers st2.next_worker_id →
      stepCreatedId st2 a = some i →
      i = st2.next_worker_id ∧ tableGet st2.workers i = none) := by
  refine ⟨runSession_pairwise acts st, runSession_keysBelow acts st hinv, ?_⟩
  intro st2 a i h2 hc
  have hi := stepCreatedId_eq st2 a i hc
  exact ⟨hi.1, hi.1 ▸ tableGet_none_of_keysBelow _ _ h2⟩

theorem worker_ids_strictly_increasing_witness :
    (runSession ⟨0, []⟩
        [SessionAction.create
           ⟨true, fun s => Except.ok s, Except.ok ⟨⟨false⟩⟩⟩
           ⟨none, "a", false, "", false, none⟩ 0,
         SessionAction.create
           ⟨true, fun s => Except.ok s, Except.ok ⟨⟨false⟩⟩⟩
           ⟨none, "a", false, "", false, none⟩ 1]).2 = [0, 1] ∧
    List.Pairwise (· < ·)
      (runSession ⟨0, []⟩
        [SessionAction.create
           ⟨true, fun s => Except.ok s, Except.ok ⟨⟨false⟩⟩⟩
           ⟨none, "a", false, "", false, none⟩ 0,
         SessionAction.create
           ⟨true, fun s => Except.ok s, Except.ok ⟨⟨false⟩⟩⟩
           ⟨none, "a", false, "", false, none⟩ 1]).2 :=
  ⟨rfl,
   (worker_ids_strictly_increasing ⟨0, []⟩
      [SessionAction.create
         ⟨true, fun s => Except.ok s, Except.ok ⟨⟨false⟩⟩⟩
         ⟨none, "a", false, "", false, none⟩ 0,
       SessionAction.create
         ⟨true, fun s => Except.ok s, Except.ok ⟨⟨false⟩⟩⟩
         ⟨none, "a", false, "", false, none⟩ 1]
      (by intro p hp; simp at hp)).1⟩

end WorkerHost
